import Mathlib

/-!
Verification of the Orbital-Music-Box circular step sequencer.

The development shallowly embeds the rotation/playhead scheduler, the note
placement (collision) logic, the effect-parameter updater and the AI
note-proposal validation of the repository.  Angles, frequencies and audio
times are modelled as exact rationals; wall-clock timestamps (`Date.now()`)
as integers.  JavaScript's `%` operator (sign of the dividend) is modelled
by `jsMod`, and `Math.round` by `jsRound`.
-/

namespace OrbitalMusicBox

/-- `jsMod a n` is JavaScript's `a % n` for a positive modulus `n`:
the remainder has the sign of the dividend `a`. -/
def jsMod (a n : ℚ) : ℚ :=
  if 0 ≤ a then a - n * ((⌊a / n⌋ : ℤ) : ℚ)
  else -((-a) - n * ((⌊(-a) / n⌋ : ℤ) : ℚ))

/-- `jsRound q` is JavaScript's `Math.round q` (half-up, towards +infinity). -/
def jsRound (q : ℚ) : ℤ := ⌊q + 1 / 2⌋

/-- A note color swatch, from `constants.ts` (`NOTE_COLORS` entries). -/
structure NoteColor where
  name : String
  color : String
  freq : ℚ
deriving DecidableEq, Repr

/-- The C-major palette from `constants.ts`. -/
def NOTE_COLORS : List NoteColor :=
  [⟨"C4", "#ef4444", 261.63⟩,
   ⟨"D4", "#f97316", 293.66⟩,
   ⟨"E4", "#eab308", 329.63⟩,
   ⟨"F4", "#22c55e", 349.23⟩,
   ⟨"G4", "#0ea5e9", 392.00⟩,
   ⟨"A4", "#3b82f6", 440.00⟩,
   ⟨"B4", "#ec4899", 493.88⟩]

/-- Per-track quantization grid, from `constants.ts`. -/
def TRACK_SNAP_ANGLES : List ℚ := [10, 15, 22.5, 30]

/-- A placed note, from `types.ts`.  In `src/App.tsx` point notes carry no
`durationAngle` field (it is `undefined`); that is modelled by
`durationAngle = 0`, matching the code's truthiness test
`note.durationAngle && note.durationAngle > 0`. -/
structure Note where
  id : String
  track : Nat
  angle : ℚ
  durationAngle : ℚ
  color : String
  name : String
deriving DecidableEq, Repr

/-- State carried across animation ticks by `App` in `src/App.tsx`:
the rotation angle, the insertion-ordered id set
`playingSustainedNotesRef` and the map `lastPlayedRef`. -/
structure SchedState where
  rotation : ℚ
  playing : List String
  lastPlayed : List (String × ℤ)
deriving DecidableEq, Repr

/-- The audio calls one `animate` tick emits, in emission order.
Entries of `oneShots` are tagged with the id of the note whose crossing
emitted the `playNote(freq)` call (the call itself only carries `freq`). -/
structure Calls where
  starts : List (String × ℚ)
  stops : List String
  oneShots : List (String × ℚ)
deriving DecidableEq, Repr

/-- Accumulator for the `notes.forEach` body of `animate`. -/
structure Acc where
  playing : List String
  lastPlayed : List (String × ℤ)
  calls : Calls
deriving DecidableEq, Repr

/-- `lastPlayedRef.current.get(note.id) || 0`. -/
def getLastPlayed (m : List (String × ℤ)) (id : String) : ℤ :=
  match m.find? (fun kv => kv.1 == id) with
  | some kv => kv.2
  | none => 0

/-- `lastPlayedRef.current.set(id, v)`: replace in place if present, else append. -/
def setLastPlayed (m : List (String × ℤ)) (id : String) (v : ℤ) : List (String × ℤ) :=
  if m.any (fun kv => kv.1 == id) then
    m.map (fun kv => if kv.1 == id then (kv.1, v) else kv)
  else m ++ [(id, v)]

/-- The fixed playhead angle of `src/App.tsx` (`const playheadPosition = 90`). -/
def playheadPosition : ℚ := 90

/-- `(note.angle + rotation) % 360`, the note's visual start angle. -/
def sustainedVisualStart (n : Note) (rot : ℚ) : ℚ := jsMod (n.angle + rot) 360

/-- `(visualStartAngle + note.durationAngle) % 360`. -/
def sustainedVisualEnd (n : Note) (rot : ℚ) : ℚ :=
  jsMod (sustainedVisualStart n rot + n.durationAngle) 360

/-- The level-triggered activity test of the sustained branch of `animate`
(`src/App.tsx` lines 167-176): is the playhead inside the note's visual
span, with wraparound through 0/360? -/
def sustainedActive (n : Note) (rot : ℚ) : Bool :=
  let visualStartAngle := sustainedVisualStart n rot
  let visualEndAngle := sustainedVisualEnd n rot
  if visualStartAngle < visualEndAngle then
    decide (playheadPosition ≥ visualStartAngle ∧ playheadPosition < visualEndAngle)
  else
    decide (playheadPosition ≥ visualStartAngle ∨ playheadPosition < visualEndAngle)

/-- The crossing test of the point-note branch of `animate`
(`src/App.tsx` lines 189-192). -/
def pointCrossed (n : Note) (prevRotation newRotation : ℚ) : Bool :=
  let prevNoteVisualAngle := jsMod (n.angle + prevRotation) 360
  let rotationIncrement := jsMod (newRotation - prevRotation + 360) 360
  let angleToPlayhead := jsMod (playheadPosition - prevNoteVisualAngle + 360) 360
  decide (0 < angleToPlayhead ∧ angleToPlayhead ≤ rotationIncrement)

/-- `noteDetails.freq * Math.pow(2, note.track)` (`src/App.tsx` lines 162-163). -/
def noteFreq (nc : NoteColor) (n : Note) : ℚ := nc.freq * 2 ^ n.track

/-- One iteration of the `notes.forEach` body of `animate` in `src/App.tsx`
(lines 156-203): skip disabled tracks and unknown colors, then either run the
sustained start/stop logic or the debounced point-note trigger logic. -/
def processNote (activeTracks : List Bool) (prevRotation newRotation : ℚ) (now : ℤ)
    (acc : Acc) (n : Note) : Acc :=
  if !(activeTracks.getD n.track false) then acc
  else
    match NOTE_COLORS.find? (fun nc => nc.color == n.color) with
    | none => acc
    | some nc =>
      let freq := noteFreq nc n
      if 0 < n.durationAngle then
        let isCurrentlyActive := sustainedActive n newRotation
        let wasActive := acc.playing.contains n.id
        if isCurrentlyActive && !wasActive then
          { acc with
            playing := acc.playing ++ [n.id],
            calls := { acc.calls with starts := acc.calls.starts ++ [(n.id, freq)] } }
        else if !isCurrentlyActive && wasActive then
          { acc with
            playing := acc.playing.filter (fun x => x != n.id),
            calls := { acc.calls with stops := acc.calls.stops ++ [n.id] } }
        else acc
      else
        if pointCrossed n prevRotation newRotation then
          let lastPlayed := getLastPlayed acc.lastPlayed n.id
          if now - lastPlayed > 250 then
            { acc with
              lastPlayed := setLastPlayed acc.lastPlayed n.id now,
              calls := { acc.calls with oneShots := acc.calls.oneShots ++ [(n.id, freq)] } }
          else acc
        else acc

/-- `degreesPerSecond / 60` with `degreesPerSecond = 360 / rotationSpeed`. -/
def degreesPerFrame (rotationSpeed : ℚ) : ℚ := 360 / rotationSpeed / 60

/-- `(prevRotation + degreesPerFrame) % 360`. -/
def nextRotation (rotationSpeed prevRotation : ℚ) : ℚ :=
  jsMod (prevRotation + degreesPerFrame rotationSpeed) 360

/-- Result of one `animate` tick: the new scheduler state and the emitted calls. -/
structure TickOut where
  state : SchedState
  calls : Calls
deriving DecidableEq, Repr

/-- One `animate` tick of `src/App.tsx` (lines 149-207): advance the rotation
and run the forEach body over every placed note in list order. -/
def animateTick (rotationSpeed : ℚ) (activeTracks : List Bool) (notes : List Note)
    (now : ℤ) (st : SchedState) : TickOut :=
  let newRotation := nextRotation rotationSpeed st.rotation
  let acc := notes.foldl (processNote activeTracks st.rotation newRotation now)
    { playing := st.playing, lastPlayed := st.lastPlayed, calls := ⟨[], [], []⟩ }
  { state := { rotation := newRotation, playing := acc.playing, lastPlayed := acc.lastPlayed },
    calls := acc.calls }

/-- The `isPlaying = false` branch of the `useEffect` in `src/App.tsx`
(lines 209-218): stop every registered sustained voice (in set insertion
order) and clear the set.  Returns the new state and the ids passed to
`stopSustainedNote`. -/
def pauseCleanup (st : SchedState) : SchedState × List String :=
  ({ st with playing := [] }, st.playing)

/-- A run of consecutive `animate` ticks at the given wall-clock instants,
accumulating every id passed to `stopSustainedNote`. -/
def runTicks (rotationSpeed : ℚ) (activeTracks : List Bool) (notes : List Note) :
    List ℤ → SchedState → SchedState × List String
  | [], st => (st, [])
  | now :: rest, st =>
    let out := animateTick rotationSpeed activeTracks notes now st
    let next := runTicks rotationSpeed activeTracks notes rest out.state
    (next.1, out.calls.stops ++ next.2)

/-! ## Note placement and collision detection (`src/App.tsx` lines 10-29, 266-343) -/

/-- `isAngleInArc` from `src/App.tsx` lines 10-17: is `angle` inside the arc
starting at `arcStart` of angular length `arcDuration` (endpoints inclusive),
with wraparound through 0/360? -/
def isAngleInArc (angle arcStart arcDuration : ℚ) : Bool :=
  let arcEnd := jsMod (arcStart + arcDuration) 360
  if arcStart < arcEnd then decide (angle ≥ arcStart ∧ angle ≤ arcEnd)
  else decide (angle ≥ arcStart ∨ angle ≤ arcEnd)

/-- `doArcsOverlap` from `src/App.tsx` lines 19-29: the four endpoint
containment tests. -/
def doArcsOverlap (start1 duration1 start2 duration2 : ℚ) : Bool :=
  let end1 := jsMod (start1 + duration1) 360
  let end2 := jsMod (start2 + duration2) 360
  isAngleInArc start1 start2 duration2 || isAngleInArc end1 start2 duration2 ||
    isAngleInArc start2 start1 duration1 || isAngleInArc end2 start1 duration1

/-- The `isSlotOccupied` closure inside `handleMouseUp`
(`src/App.tsx` lines 272-287). -/
def isSlotOccupied (notes : List Note) (snapAngleForTrack : ℚ)
    (checkTrack : Nat) (checkAngle : ℚ) (duration : ℚ) : Bool :=
  notes.any (fun existingNote =>
    if existingNote.track != checkTrack then false
    else if 0 < duration then
      if 0 < existingNote.durationAngle then
        doArcsOverlap checkAngle duration existingNote.angle existingNote.durationAngle
      else isAngleInArc existingNote.angle checkAngle duration
    else
      if 0 < existingNote.durationAngle then
        isAngleInArc checkAngle existingNote.angle existingNote.durationAngle
      else decide (|existingNote.angle - checkAngle| < snapAngleForTrack / 2))

/-- Build a new note as `handleMouseUp` does (fresh id supplied by the caller;
the code uses `Date.now()` and `Math.random()`). -/
def mkNote (newId : String) (track : Nat) (angle durationAngle : ℚ)
    (activeColor : NoteColor) : Note :=
  { id := newId, track := track, angle := angle, durationAngle := durationAngle,
    color := activeColor.color, name := activeColor.name }

/-- `Math.round(totalAngleDelta / snap) * snap`. -/
def snappedTotalAngle (snapAngleForTrack totalAngleDelta : ℚ) : ℚ :=
  ((jsRound (totalAngleDelta / snapAngleForTrack) : ℤ) : ℚ) * snapAngleForTrack

/-- `handleMouseUp` from `src/App.tsx` lines 266-343, from the point where a
drag state `(startTrack, startAngle, totalAngleDelta)` exists: either treat
the gesture as a click creating a point note, or create a sustained note,
rejecting occupied slots.  Returns the resulting note list. -/
def handleMouseUp (notes : List Note) (snapAngles : List ℚ) (activeColor : NoteColor)
    (newId : String) (startTrack : Nat) (startAngle totalAngleDelta : ℚ) : List Note :=
  let snapAngleForTrack := snapAngles.getD startTrack 0
  if |totalAngleDelta| < snapAngleForTrack / 2 then
    if !(isSlotOccupied notes snapAngleForTrack startTrack startAngle 0) then
      notes ++ [mkNote newId startTrack startAngle 0 activeColor]
    else notes
  else
    let snapped := snappedTotalAngle snapAngleForTrack totalAngleDelta
    let finalAngle := if snapped ≥ 0 then startAngle else jsMod (startAngle + snapped + 360) 360
    let finalDuration := if snapped ≥ 0 then snapped else -snapped
    if finalDuration < snapAngleForTrack / 2 then
      if !(isSlotOccupied notes snapAngleForTrack startTrack startAngle 0) then
        notes ++ [mkNote newId startTrack startAngle 0 activeColor]
      else notes
    else if !(isSlotOccupied notes snapAngleForTrack startTrack finalAngle finalDuration) then
      let cappedDuration := if finalDuration ≥ 360 then (359.9 : ℚ) else finalDuration
      notes ++ [mkNote newId startTrack finalAngle cappedDuration activeColor]
    else notes

/-- Modelled from the spec: the circular distance from `s` forwards to `x`
in degrees, in `[0, 360)` for inputs in `[0, 360)`. -/
def circDist (s x : ℚ) : ℚ := jsMod (x - s + 360) 360

/-- Modelled from the spec: two angular spans `[a1, a1+d1)` and `[a2, a2+d2)`
on the disc overlap (a point note is the degenerate span `d = 0`, a single
angle).  For proper spans this is the standard characterization: some span
contains the other's start angle. -/
def spanOverlapSpec (a1 d1 a2 d2 : ℚ) : Prop :=
  a1 = a2 ∨ circDist a1 a2 < d1 ∨ circDist a2 a1 < d2

/-! ## Effect parameter updater (`src/hooks/useAudioEngine.ts` lines 153-189,
`src/unnamed/part_003` lines 206-253)

Modelled from the Web Audio API semantics: an `AudioParam` keeps a list of
scheduled automation events; `linearRampToValueAtTime(value, endTime)`
appends one event and cancels nothing (only `cancelScheduledValues` removes
events).  Precomputed buffers (`ConvolverNode.buffer`, `WaveShaperNode.curve`)
are modelled by the list of assignments made to them, each assignment
recorded by the parameters from which the buffer was computed. -/

/-- A Web Audio `AudioParam`: the scheduled automation events, in
scheduling order, as (target time, target value) pairs. -/
structure AudioParam where
  events : List (ℚ × ℚ)
deriving DecidableEq, Repr

/-- `param.linearRampToValueAtTime(value, endTime)`: append one automation
event; previously scheduled events are not cancelled. -/
def linearRampToValueAtTime (p : AudioParam) (value endTime : ℚ) : AudioParam :=
  { events := p.events ++ [(endTime, value)] }

/-- Distortion settings, from `types.ts` of the nested-effects variant. -/
structure DistortionEffect where
  «on» : Bool
  drive : ℚ
  tone : ℚ
  output : ℚ
deriving DecidableEq, Repr

/-- Panner settings. -/
structure PannerEffect where
  «on» : Bool
  pan : ℚ
deriving DecidableEq, Repr

/-- Phaser settings. -/
structure PhaserEffect where
  «on» : Bool
  rate : ℚ
  depth : ℚ
  feedback : ℚ
deriving DecidableEq, Repr

/-- Flanger settings. -/
structure FlangerEffect where
  «on» : Bool
  delay : ℚ
  depth : ℚ
  feedback : ℚ
  rate : ℚ
deriving DecidableEq, Repr

/-- Chorus settings. -/
structure ChorusEffect where
  «on» : Bool
  rate : ℚ
  depth : ℚ
deriving DecidableEq, Repr

/-- Tremolo settings. -/
structure TremoloEffect where
  «on» : Bool
  frequency : ℚ
  depth : ℚ
deriving DecidableEq, Repr

/-- Delay settings. -/
structure DelayEffect where
  «on» : Bool
  time : ℚ
  feedback : ℚ
deriving DecidableEq, Repr

/-- Reverb settings. -/
structure ReverbEffect where
  «on» : Bool
  decay : ℚ
  wet : ℚ
deriving DecidableEq, Repr

/-- Bitcrusher settings. -/
structure BitcrusherEffect where
  «on» : Bool
  bitDepth : ℚ
  mix : ℚ
deriving DecidableEq, Repr

/-- Vibrato settings. -/
structure VibratoEffect where
  «on» : Bool
  rate : ℚ
  depth : ℚ
deriving DecidableEq, Repr

/-- The nested `AudioEffects` configuration record consumed by
`src/hooks/useAudioEngine.ts`. -/
structure AudioEffects where
  distortion : DistortionEffect
  panner : PannerEffect
  phaser : PhaserEffect
  flanger : FlangerEffect
  chorus : ChorusEffect
  tremolo : TremoloEffect
  delay : DelayEffect
  reverb : ReverbEffect
  bitcrusher : BitcrusherEffect
  vibrato : VibratoEffect
deriving DecidableEq, Repr

/-- The graph parameters touched by `updateEffects` in
`src/hooks/useAudioEngine.ts` (the `effectsChainRef` nodes). -/
structure EffectsChain where
  reverbWet : AudioParam
  delayWet : AudioParam
  delayDelayTime : AudioParam
  delayFeedback : AudioParam
  flangerWet : AudioParam
  flangerDelayTime : AudioParam
  flangerLfoFrequency : AudioParam
  flangerLfoGain : AudioParam
  flangerFeedback : AudioParam
  bitcrusherWet : AudioParam
  bitcrusherCurve : List ℚ
  distortionWet : AudioParam
  distortionCurve : List ℚ
  distortionToneFrequency : AudioParam
  distortionOutputGain : AudioParam
deriving DecidableEq, Repr

/-- `const RAMP_TIME = 0.1`. -/
def RAMP_TIME : ℚ := 0.1

/-- `updateEffects` from `src/hooks/useAudioEngine.ts` lines 153-189: schedule
one linear ramp per touched parameter towards `now + RAMP_TIME`, reassign the
bitcrusher curve whenever the bitcrusher is on (recorded by its `bitDepth`
argument) and reassign the distortion curve on every call (recorded by its
`drive` argument). -/
def updateEffects (effects : AudioEffects) (now : ℚ) (chain : EffectsChain) : EffectsChain :=
  let t := now + RAMP_TIME
  { chain with
    reverbWet := linearRampToValueAtTime chain.reverbWet
      (if effects.reverb.«on» then effects.reverb.wet else 0) t,
    delayWet := linearRampToValueAtTime chain.delayWet
      (if effects.delay.«on» then 0.5 else 0) t,
    delayDelayTime := linearRampToValueAtTime chain.delayDelayTime effects.delay.time t,
    delayFeedback := linearRampToValueAtTime chain.delayFeedback effects.delay.feedback t,
    flangerWet := linearRampToValueAtTime chain.flangerWet
      (if effects.flanger.«on» then 0.7 else 0) t,
    flangerDelayTime := linearRampToValueAtTime chain.flangerDelayTime
      (effects.flanger.delay / 1000) t,
    flangerLfoFrequency := linearRampToValueAtTime chain.flangerLfoFrequency
      effects.flanger.rate t,
    flangerLfoGain := linearRampToValueAtTime chain.flangerLfoGain
      (effects.flanger.depth / 1000) t,
    flangerFeedback := linearRampToValueAtTime chain.flangerFeedback
      effects.flanger.feedback t,
    bitcrusherCurve := if effects.bitcrusher.«on» then
        chain.bitcrusherCurve ++ [effects.bitcrusher.bitDepth]
      else chain.bitcrusherCurve,
    bitcrusherWet := linearRampToValueAtTime chain.bitcrusherWet
      (if effects.bitcrusher.«on» then effects.bitcrusher.mix else 0) t,
    distortionWet := linearRampToValueAtTime chain.distortionWet
      (if effects.distortion.«on» then 1.0 else 0) t,
    distortionCurve := chain.distortionCurve ++ [effects.distortion.drive],
    distortionToneFrequency := linearRampToValueAtTime chain.distortionToneFrequency
      effects.distortion.tone t,
    distortionOutputGain := linearRampToValueAtTime chain.distortionOutputGain
      effects.distortion.output t }

/-- `ReverbType` of the flat-effects variant (`src/unnamed/part_004`). -/
inductive ReverbType where
  | short
  | medium
  | long
deriving DecidableEq, Repr

/-- `DistortionType` of the flat-effects variant. -/
inductive DistortionType where
  | soft
  | hard
deriving DecidableEq, Repr

/-- The flat `AudioEffects` configuration record of `src/unnamed/part_004`,
consumed by `updateEffects` in `src/unnamed/part_003`. -/
structure AudioEffectsFlat where
  reverbMix : ℚ
  reverbType : ReverbType
  delayMix : ℚ
  distortionMix : ℚ
  distortionType : DistortionType
  phaserMix : ℚ
  phaserRate : ℚ
  phaserDepth : ℚ
  flangerMix : ℚ
  flangerRate : ℚ
  flangerDepth : ℚ
  subOctaveMix : ℚ
deriving DecidableEq, Repr

/-- The `(duration, decay)` impulse-response parameters per reverb type
(`src/unnamed/part_003` lines 215-219). -/
def reverbParams (t : ReverbType) : ℚ × ℚ :=
  match t with
  | ReverbType.short => (1, 2)
  | ReverbType.medium => (2, 4)
  | ReverbType.long => (4, 6)

/-- The graph parameters touched by `updateEffects` in `src/unnamed/part_003`. -/
structure EffectsChainFlat where
  reverbBuffer : List (ℚ × ℚ)
  distortionCurve : List (DistortionType × ℚ)
  reverbWet : AudioParam
  delayWet : AudioParam
  distortionWet : AudioParam
  phaserWet : AudioParam
  flangerWet : AudioParam
  phaserLfoFrequency : AudioParam
  phaserLfoGain : AudioParam
  flangerLfoFrequency : AudioParam
  flangerLfoGain : AudioParam
  dryGain : AudioParam
deriving DecidableEq, Repr

/-- `updateEffects` from `src/unnamed/part_003` lines 206-253: regenerate the
reverb impulse response only when `reverbType` changed since the previous
call (`prevEffects?.reverbType !== newEffects.reverbType`, true on the first
call), regenerate the distortion curve only when `distortionType` changed,
then ramp the mix/LFO parameters and the dry gain. -/
def updateEffectsFlat (prevEffects : Option AudioEffectsFlat)
    (newEffects : AudioEffectsFlat) (now : ℚ) (chain : EffectsChainFlat) : EffectsChainFlat :=
  let reverbChanged := match prevEffects with
    | none => true
    | some p => decide (p.reverbType ≠ newEffects.reverbType)
  let distortionChanged := match prevEffects with
    | none => true
    | some p => decide (p.distortionType ≠ newEffects.distortionType)
  let targetTime := now + RAMP_TIME
  let totalWetTarget := newEffects.reverbMix + newEffects.delayMix +
    newEffects.distortionMix + newEffects.phaserMix + newEffects.flangerMix
  let dryTarget := max 0 (1 - totalWetTarget / 2)
  { chain with
    reverbBuffer := if reverbChanged then
        chain.reverbBuffer ++ [reverbParams newEffects.reverbType]
      else chain.reverbBuffer,
    distortionCurve := if distortionChanged then
        chain.distortionCurve ++ [(newEffects.distortionType, 100)]
      else chain.distortionCurve,
    reverbWet := linearRampToValueAtTime chain.reverbWet newEffects.reverbMix targetTime,
    delayWet := linearRampToValueAtTime chain.delayWet newEffects.delayMix targetTime,
    distortionWet := linearRampToValueAtTime chain.distortionWet newEffects.distortionMix targetTime,
    phaserWet := linearRampToValueAtTime chain.phaserWet newEffects.phaserMix targetTime,
    flangerWet := linearRampToValueAtTime chain.flangerWet newEffects.flangerMix targetTime,
    phaserLfoFrequency := linearRampToValueAtTime chain.phaserLfoFrequency
      newEffects.phaserRate targetTime,
    phaserLfoGain := linearRampToValueAtTime chain.phaserLfoGain
      newEffects.phaserDepth targetTime,
    flangerLfoFrequency := linearRampToValueAtTime chain.flangerLfoFrequency
      newEffects.flangerRate targetTime,
    flangerLfoGain := linearRampToValueAtTime chain.flangerLfoGain
      newEffects.flangerDepth targetTime,
    dryGain := linearRampToValueAtTime chain.dryGain dryTarget targetTime }

/-! ## AI note-proposal validation (`src/ai/gemini.ts` lines 55-73) -/

/-- A parsed JSON value, the result of `JSON.parse` on the model response. -/
inductive JsonValue where
  | null : JsonValue
  | bool (b : Bool) : JsonValue
  | num (q : ℚ) : JsonValue
  | str (s : String) : JsonValue
  | arr (elems : List JsonValue) : JsonValue
  | obj (fields : List (String × JsonValue)) : JsonValue

/-- The validation performed by `generateComposition` on the parsed response
(`src/ai/gemini.ts` lines 55-73): only `Array.isArray` is checked; the
thrown error is caught and resurfaced as the generic generation failure.
Any array is returned whole (`return parsed as AINote[]`), with no check of
its elements (the code leaves a TODO for that). -/
def validateComposition (parsed : JsonValue) : Except String (List JsonValue) :=
  match parsed with
  | JsonValue.arr elems => Except.ok elems
  | _ => Except.error "Failed to generate AI composition."

/-- Is a JSON value a number? -/
def JsonValue.isNum : JsonValue → Bool
  | JsonValue.num _ => true
  | _ => false

/-- Modelled from the spec: an element has the `AINote` shape
`{track, angle, colorIndex}` when it is an object carrying numeric `track`,
`angle` and `colorIndex` fields. -/
def isAINoteShape (v : JsonValue) : Bool :=
  match v with
  | JsonValue.obj fields =>
    (match fields.find? (fun kv => kv.1 == "track") with
     | some kv => kv.2.isNum
     | none => false) &&
    (match fields.find? (fun kv => kv.1 == "angle") with
     | some kv => kv.2.isNum
     | none => false) &&
    (match fields.find? (fun kv => kv.1 == "colorIndex") with
     | some kv => kv.2.isNum
     | none => false)
  | _ => false

/-! ## Concrete instances used in scenario theorems -/

/-- A point note (no `durationAngle`): C4 red swatch at angle 0 on track 0. -/
def c2Note : Note := ⟨"p1", 0, 0, 0, "#ef4444", "C4"⟩

/-- A sustained note spanning 180 degrees from angle 0 on track 0. -/
def c5Note : Note := ⟨"s1", 0, 0, 180, "#ef4444", "C4"⟩

/-- An existing sustained note on track 0 spanning `[100, 110)`. -/
def c6Note : Note := ⟨"n1", 0, 100, 10, "#ef4444", "C4"⟩

/-- The red C4 color swatch. -/
def colorC4 : NoteColor := ⟨"C4", "#ef4444", 261.63⟩

/-- An `AudioParam` with no scheduled events. -/
def emptyParam : AudioParam := ⟨[]⟩

/-- A freshly built effects chain: no scheduled events, no buffer assignments. -/
def chain0 : EffectsChain :=
  ⟨emptyParam, emptyParam, emptyParam, emptyParam, emptyParam, emptyParam, emptyParam,
   emptyParam, emptyParam, emptyParam, [], emptyParam, [], emptyParam, emptyParam⟩

/-- A sample configuration: reverb on at wet 0.5, bitcrusher on at depth 8,
distortion off at drive 0.5. -/
def sampleEffects : AudioEffects :=
  { distortion := ⟨false, 0.5, 2500, 0.5⟩,
    panner := ⟨false, 0⟩,
    phaser := ⟨false, 1.2, 0.5, 0.5⟩,
    flanger := ⟨false, 3, 1, 0.5, 1.5⟩,
    chorus := ⟨false, 1.5, 0.5⟩,
    tremolo := ⟨false, 5, 0.6⟩,
    delay := ⟨false, 0.25, 0.3⟩,
    reverb := ⟨true, 1.5, 0.5⟩,
    bitcrusher := ⟨true, 8, 0.4⟩,
    vibrato := ⟨false, 5, 10⟩ }

/-! ## Theorems -/

/-! ### Helper lemmas about the `lastPlayed` association list -/

theorem find?_set_ne (m : List (String × ℤ)) (k s : String) (v : ℤ) (h : k ≠ s) :
    (m.map (fun kv => if kv.1 == k then (kv.1, v) else kv)).find? (fun kv => kv.1 == s) =
      m.find? (fun kv => kv.1 == s) := by
  induction m with
  | nil => rfl
  | cons kv t ih =>
    rw [List.map_cons]
    by_cases hk : kv.1 = k
    · have e1 : (if kv.1 == k then (kv.1, v) else kv) = (kv.1, v) := if_pos (by simp [hk])
      rw [e1, List.find?_cons_of_neg _ (by simp [hk, h]),
        List.find?_cons_of_neg _ (by simp [hk, h]), ih]
    · have e1 : (if kv.1 == k then (kv.1, v) else kv) = kv := if_neg (by simp [hk])
      rw [e1]
      by_cases hs : kv.1 = s
      · rw [List.find?_cons_of_pos _ (by simp [hs]), List.find?_cons_of_pos _ (by simp [hs])]
      · rw [List.find?_cons_of_neg _ (by simp [hs]), List.find?_cons_of_neg _ (by simp [hs]),
          ih]

theorem find?_append_ne (m : List (String × ℤ)) (k s : String) (v : ℤ) (h : k ≠ s) :
    (m ++ [(k, v)]).find? (fun kv => kv.1 == s) = m.find? (fun kv => kv.1 == s) := by
  induction m with
  | nil => rw [List.nil_append, List.find?_cons_of_neg _ (by simp [h])]
  | cons kv t ih =>
    rw [List.cons_append]
    by_cases hs : kv.1 = s
    · rw [List.find?_cons_of_pos _ (by simp [hs]), List.find?_cons_of_pos _ (by simp [hs])]
    · rw [List.find?_cons_of_neg _ (by simp [hs]), List.find?_cons_of_neg _ (by simp [hs]),
        ih]

theorem find?_set_self (m : List (String × ℤ)) (k : String) (v : ℤ)
    (ha : m.any (fun kv => kv.1 == k) = true) :
    (m.map (fun kv => if kv.1 == k then (kv.1, v) else kv)).find? (fun kv => kv.1 == k) =
      some (k, v) := by
  induction m with
  | nil => simp at ha
  | cons kv t ih =>
    rw [List.map_cons]
    by_cases hk : kv.1 = k
    · have e1 : (if kv.1 == k then (kv.1, v) else kv) = (kv.1, v) := if_pos (by simp [hk])
      rw [e1, List.find?_cons_of_pos _ (by simp [hk]), hk]
    · have ha' : t.any (fun kv => kv.1 == k) = true := by
        rcases List.any_eq_true.mp ha with ⟨x, hx, hxk⟩
        rcases List.mem_cons.mp hx with rfl | hx'
        · exact absurd (by simpa using hxk) hk
        · exact List.any_eq_true.mpr ⟨x, hx', hxk⟩
      have e1 : (if kv.1 == k then (kv.1, v) else kv) = kv := if_neg (by simp [hk])
      rw [e1, List.find?_cons_of_neg _ (by simp [hk]), ih ha']

theorem find?_append_self (m : List (String × ℤ)) (k : String) (v : ℤ)
    (ha : m.any (fun kv => kv.1 == k) = false) :
    (m ++ [(k, v)]).find? (fun kv => kv.1 == k) = some (k, v) := by
  induction m with
  | nil => rw [List.nil_append, List.find?_cons_of_pos _ (by simp)]
  | cons kv t ih =>
    rw [List.any_cons, Bool.or_eq_false_iff] at ha
    obtain ⟨h1, h2⟩ := ha
    have hk : ¬ kv.1 = k := by simpa using h1
    rw [List.cons_append, List.find?_cons_of_neg _ (by simp [hk]), ih h2]

theorem getLastPlayed_set_ne (m : List (String × ℤ)) (k s : String) (v : ℤ) (h : k ≠ s) :
    getLastPlayed (setLastPlayed m k v) s = getLastPlayed m s := by
  unfold setLastPlayed
  cases ha : m.any (fun kv => kv.1 == k) with
  | true =>
    simp only [ha, if_true]
    unfold getLastPlayed
    rw [find?_set_ne m k s v h]
  | false =>
    simp only [ha, Bool.false_eq_true, if_false]
    unfold getLastPlayed
    rw [find?_append_ne m k s v h]

theorem getLastPlayed_set_self (m : List (String × ℤ)) (k : String) (v : ℤ) :
    getLastPlayed (setLastPlayed m k v) k = v := by
  unfold setLastPlayed
  cases ha : m.any (fun kv => kv.1 == k) with
  | true =>
    simp only [ha, if_true]
    unfold getLastPlayed
    rw [find?_set_self m k v ha]
  | false =>
    simp only [ha, Bool.false_eq_true, if_false]
    unfold getLastPlayed
    rw [find?_append_self m k v ha]

/-! ### Per-note lemmas about the `forEach` body -/

/-- Processing a note with a different id neither adds nor removes `s`
from the playing-sustained set. -/
theorem processNote_playing_ne (tr : List Bool) (p r : ℚ) (now : ℤ) (acc : Acc)
    (m : Note) (s : String) (h : m.id ≠ s) :
    (s ∈ (processNote tr p r now acc m).playing ↔ s ∈ acc.playing) := by
  have h' : ¬ s = m.id := fun e => h e.symm
  simp only [processNote]
  split
  · exact Iff.rfl
  split
  · exact Iff.rfl
  split
  · split
    · simp [h']
    split
    · simp [List.mem_filter, h']
    · exact Iff.rfl
  · split
    · split
      · exact Iff.rfl
      · exact Iff.rfl
    · exact Iff.rfl

/-- Processing a note with a different id does not emit a stop call for `s`. -/
theorem processNote_stops_ne (tr : List Bool) (p r : ℚ) (now : ℤ) (acc : Acc)
    (m : Note) (s : String) (h : m.id ≠ s) :
    (s ∈ (processNote tr p r now acc m).calls.stops ↔ s ∈ acc.calls.stops) := by
  have h' : ¬ s = m.id := fun e => h e.symm
  simp only [processNote]
  split
  · exact Iff.rfl
  split
  · exact Iff.rfl
  split
  · split
    · exact Iff.rfl
    split
    · simp [h']
    · exact Iff.rfl
  · split
    · split
      · exact Iff.rfl
      · exact Iff.rfl
    · exact Iff.rfl

/-- Processing a note with a different id leaves the one-shot calls tagged
`s` and the `lastPlayed` entry of `s` unchanged. -/
theorem processNote_oneShots_ne (tr : List Bool) (p r : ℚ) (now : ℤ) (acc : Acc)
    (m : Note) (s : String) (h : m.id ≠ s) :
    (processNote tr p r now acc m).calls.oneShots.filter (fun x => x.1 == s) =
      acc.calls.oneShots.filter (fun x => x.1 == s) ∧
    getLastPlayed (processNote tr p r now acc m).lastPlayed s =
      getLastPlayed acc.lastPlayed s := by
  simp only [processNote]
  split
  · exact ⟨rfl, rfl⟩
  split
  · exact ⟨rfl, rfl⟩
  split
  · split
    · exact ⟨rfl, rfl⟩
    split
    · exact ⟨rfl, rfl⟩
    · exact ⟨rfl, rfl⟩
  · split
    · split
      · refine ⟨?_, getLastPlayed_set_ne _ _ _ _ h⟩
        simp [List.filter_append, h]
      · exact ⟨rfl, rfl⟩
    · exact ⟨rfl, rfl⟩

/-- Processing a sustained note on an enabled track with a known color makes
its membership in the playing set equal to the level-triggered activity
test, whatever it was before. -/
theorem processNote_playing_self (tr : List Bool) (p r : ℚ) (now : ℤ) (acc : Acc)
    (n : Note) (htr : tr.getD n.track false = true)
    (hcol : (NOTE_COLORS.find? (fun nc => nc.color == n.color)).isSome)
    (hdur : 0 < n.durationAngle) :
    (n.id ∈ (processNote tr p r now acc n).playing ↔ sustainedActive n r = true) := by
  obtain ⟨nc, hnc⟩ := Option.isSome_iff_exists.mp hcol
  simp only [processNote, htr, hnc, Bool.not_true, Bool.false_eq_true, if_false,
    if_pos hdur]
  by_cases hwas : n.id ∈ acc.playing <;>
    cases hact : sustainedActive n r <;>
      simp_all [List.mem_filter]

/-- On a crossing tick that passes the debounce test, a point note on an
enabled track with a known color emits exactly one `playNote` call, records
`now` in `lastPlayed`, and leaves the playing set alone. -/
theorem processNote_point_fired (tr : List Bool) (p r : ℚ) (now : ℤ) (acc : Acc)
    (n : Note) (nc : NoteColor) (htr : tr.getD n.track false = true)
    (hnc : NOTE_COLORS.find? (fun c => c.color == n.color) = some nc)
    (hdur : ¬ 0 < n.durationAngle)
    (hcross : pointCrossed n p r = true)
    (hdeb : now - getLastPlayed acc.lastPlayed n.id > 250) :
    (processNote tr p r now acc n).calls.oneShots =
      acc.calls.oneShots ++ [(n.id, noteFreq nc n)] ∧
    getLastPlayed (processNote tr p r now acc n).lastPlayed n.id = now ∧
    (processNote tr p r now acc n).playing = acc.playing := by
  simp only [processNote, htr, hnc, Bool.not_true, Bool.false_eq_true, if_false,
    if_neg hdur, hcross, if_pos hdeb, if_true]
  refine ⟨?_, ?_, ?_⟩ <;> simp [getLastPlayed_set_self]

/-- On a crossing tick inside the debounce window, a point note leaves the
accumulator untouched. -/
theorem processNote_point_debounced (tr : List Bool) (p r : ℚ) (now : ℤ) (acc : Acc)
    (n : Note) (nc : NoteColor) (htr : tr.getD n.track false = true)
    (hnc : NOTE_COLORS.find? (fun c => c.color == n.color) = some nc)
    (hdur : ¬ 0 < n.durationAngle)
    (hdeb : ¬ now - getLastPlayed acc.lastPlayed n.id > 250) :
    processNote tr p r now acc n = acc := by
  simp only [processNote, htr, hnc, Bool.not_true, Bool.false_eq_true, if_false,
    if_neg hdur, if_neg hdeb]
  split <;> rfl

/-! ### Fold lemmas over the note list -/

/-- Folding over notes none of which has id `s` preserves membership of `s`
in the playing set and in the stop calls. -/
theorem foldl_playing_stops_ne (tr : List Bool) (p r : ℚ) (now : ℤ) (s : String)
    (l : List Note) (h : ∀ m ∈ l, m.id ≠ s) (acc : Acc) :
    (s ∈ (l.foldl (processNote tr p r now) acc).playing ↔ s ∈ acc.playing) ∧
    (s ∈ (l.foldl (processNote tr p r now) acc).calls.stops ↔ s ∈ acc.calls.stops) := by
  induction l generalizing acc with
  | nil => exact ⟨Iff.rfl, Iff.rfl⟩
  | cons m t ih =>
    rw [List.foldl_cons]
    have hm : m.id ≠ s := h m (List.mem_cons_self m t)
    have ht : ∀ x ∈ t, x.id ≠ s := fun x hx => h x (List.mem_cons_of_mem m hx)
    refine ⟨?_, ?_⟩
    · exact (ih ht _).1.trans (processNote_playing_ne tr p r now acc m s hm)
    · exact (ih ht _).2.trans (processNote_stops_ne tr p r now acc m s hm)

/-- Folding over notes none of which has id `s` preserves the tagged
one-shot calls and the `lastPlayed` entry of `s`. -/
theorem foldl_oneShots_ne (tr : List Bool) (p r : ℚ) (now : ℤ) (s : String)
    (l : List Note) (h : ∀ m ∈ l, m.id ≠ s) (acc : Acc) :
    (l.foldl (processNote tr p r now) acc).calls.oneShots.filter (fun x => x.1 == s) =
      acc.calls.oneShots.filter (fun x => x.1 == s) ∧
    getLastPlayed (l.foldl (processNote tr p r now) acc).lastPlayed s =
      getLastPlayed acc.lastPlayed s := by
  induction l generalizing acc with
  | nil => exact ⟨rfl, rfl⟩
  | cons m t ih =>
    rw [List.foldl_cons]
    have hm : m.id ≠ s := h m (List.mem_cons_self m t)
    have ht : ∀ x ∈ t, x.id ≠ s := fun x hx => h x (List.mem_cons_of_mem m hx)
    have hstep := processNote_oneShots_ne tr p r now acc m s hm
    refine ⟨(ih ht _).1.trans hstep.1, (ih ht _).2.trans hstep.2⟩

/-- Once the playing-set membership of a sustained note equals its activity
test, folding over further notes (each of which either has a different id or
is the note itself) keeps it that way. -/
theorem foldl_playing_inv (tr : List Bool) (p r : ℚ) (now : ℤ) (n : Note)
    (htr : tr.getD n.track false = true)
    (hcol : (NOTE_COLORS.find? (fun nc => nc.color == n.color)).isSome)
    (hdur : 0 < n.durationAngle)
    (l : List Note) (huniq : ∀ m ∈ l, m.id = n.id → m = n) (acc : Acc)
    (hacc : n.id ∈ acc.playing ↔ sustainedActive n r = true) :
    (n.id ∈ (l.foldl (processNote tr p r now) acc).playing ↔
      sustainedActive n r = true) := by
  induction l generalizing acc with
  | nil => exact hacc
  | cons m t ih =>
    rw [List.foldl_cons]
    have ht : ∀ x ∈ t, x.id = n.id → x = n :=
      fun x hx => huniq x (List.mem_cons_of_mem m hx)
    by_cases hm : m = n
    · subst hm
      exact ih ht _ (processNote_playing_self tr p r now acc m htr hcol hdur)
    · have hne : m.id ≠ n.id :=
        fun e => hm (huniq m (List.mem_cons_self m t) e)
      exact ih ht _ ((processNote_playing_ne tr p r now acc m n.id hne).trans hacc)

/-- Folding over a note list containing a sustained note `n` (uniquely
identified by its id) leaves `n.id` in the playing set exactly when the
playhead sits inside `n`'s visual span. -/
theorem foldl_playing_self (tr : List Bool) (p r : ℚ) (now : ℤ) (n : Note)
    (htr : tr.getD n.track false = true)
    (hcol : (NOTE_COLORS.find? (fun nc => nc.color == n.color)).isSome)
    (hdur : 0 < n.durationAngle)
    (l : List Note) (hmem : n ∈ l) (huniq : ∀ m ∈ l, m.id = n.id → m = n) (acc : Acc) :
    (n.id ∈ (l.foldl (processNote tr p r now) acc).playing ↔
      sustainedActive n r = true) := by
  induction l generalizing acc with
  | nil => cases hmem
  | cons m t ih =>
    rw [List.foldl_cons]
    have ht : ∀ x ∈ t, x.id = n.id → x = n :=
      fun x hx => huniq x (List.mem_cons_of_mem m hx)
    by_cases hm : m = n
    · subst hm
      exact foldl_playing_inv tr p r now m htr hcol hdur t ht _
        (processNote_playing_self tr p r now acc m htr hcol hdur)
    · have hmem' : n ∈ t := by
        rcases List.mem_cons.mp hmem with h1 | h1
        · exact absurd h1.symm hm
        · exact h1
      exact ih hmem' ht _

/-- C1: after any `animate` tick — whatever the previous playing set, so in
particular on the ticks a span is entered or exited and on the first tick
after a pause/resume cycle — a sustained note on an enabled track (with a
palette color, uniquely identified by its id) is registered in the
playing-sustained set exactly when the fixed playhead angle lies inside its
visual span `[visualStart, visualEnd)` computed from the new rotation, with
wraparound through 0/360.  The check is level-triggered: it is re-evaluated
from the span on every tick. -/
theorem c1_sustained_voice_iff_playhead_in_span
    (speed : ℚ) (tracks : List Bool) (notes : List Note) (now : ℤ) (st : SchedState)
    (n : Note) (hmem : n ∈ notes) (huniq : ∀ m ∈ notes, m.id = n.id → m = n)
    (hdur : 0 < n.durationAngle) (htr : tracks.getD n.track false = true)
    (hcol : (NOTE_COLORS.find? (fun nc => nc.color == n.color)).isSome) :
    (n.id ∈ (animateTick speed tracks notes now st).state.playing ↔
      sustainedActive n (nextRotation speed st.rotation) = true) := by
  simp only [animateTick]
  exact foldl_playing_self tracks st.rotation (nextRotation speed st.rotation) now n
    htr hcol hdur notes hmem huniq _

/-- A sustained note on track 2 spanning `[40, 100)`, G4 colored. -/
def c1Note : Note := ⟨"s9", 2, 40, 60, "#0ea5e9", "G4"⟩

/-- Witness for C1 at a concrete tick: one sustained note, empty prior state. -/
theorem c1_sustained_voice_iff_playhead_in_span_witness :
    ("s9" ∈ (animateTick 10 [true, true, true, true] [c1Note] 0
        ⟨0, [], []⟩).state.playing ↔
      sustainedActive c1Note (nextRotation 10 0) = true) :=
  c1_sustained_voice_iff_playhead_in_span 10 [true, true, true, true] [c1Note] 0
    ⟨0, [], []⟩ c1Note (List.mem_singleton.mpr rfl)
    (fun m hm _ => List.mem_singleton.mp hm)
    (by norm_num [c1Note])
    (by norm_num [c1Note, List.getD])
    (by decide)

/-- C3: a point note (enabled track, palette color, id unique in the list)
whose visual angle crosses the playhead during a tick, with the debounce
window clear, produces exactly one `playNote` call on that tick and records
the trigger time; a second crossing on the following tick less than 250 ms
of wall-clock time after that trigger produces zero additional calls. -/
theorem animateTick_point_fired
    (speed : ℚ) (tracks : List Bool) (l1 l2 : List Note) (n : Note) (nc : NoteColor)
    (st : SchedState) (now : ℤ)
    (hl1 : ∀ m ∈ l1, m.id ≠ n.id) (hl2 : ∀ m ∈ l2, m.id ≠ n.id)
    (hdur : ¬ 0 < n.durationAngle)
    (htr : tracks.getD n.track false = true)
    (hnc : NOTE_COLORS.find? (fun c => c.color == n.color) = some nc)
    (hcross : pointCrossed n st.rotation (nextRotation speed st.rotation) = true)
    (hdeb : now - getLastPlayed st.lastPlayed n.id > 250) :
    ((animateTick speed tracks (l1 ++ n :: l2) now st).calls.oneShots.filter
        (fun x => x.1 == n.id) = [(n.id, noteFreq nc n)]) ∧
    getLastPlayed (animateTick speed tracks (l1 ++ n :: l2) now st).state.lastPlayed
      n.id = now := by
  simp only [animateTick, List.foldl_append, List.foldl_cons]
  have hstep1 := foldl_oneShots_ne tracks st.rotation (nextRotation speed st.rotation)
    now n.id l1 hl1 ⟨st.playing, st.lastPlayed, ⟨[], [], []⟩⟩
  have hdeb' : now - getLastPlayed
      (l1.foldl (processNote tracks st.rotation (nextRotation speed st.rotation) now)
        ⟨st.playing, st.lastPlayed, ⟨[], [], []⟩⟩).lastPlayed n.id > 250 := by
    rw [hstep1.2]; exact hdeb
  have hfired := processNote_point_fired tracks st.rotation
    (nextRotation speed st.rotation) now _ n nc htr hnc hdur hcross hdeb'
  have hstep2 := foldl_oneShots_ne tracks st.rotation (nextRotation speed st.rotation)
    now n.id l2 hl2
    (processNote tracks st.rotation (nextRotation speed st.rotation) now
      (l1.foldl (processNote tracks st.rotation (nextRotation speed st.rotation) now)
        ⟨st.playing, st.lastPlayed, ⟨[], [], []⟩⟩) n)
  constructor
  · rw [hstep2.1, hfired.1, List.filter_append, hstep1.1]
    simp
  · rw [hstep2.2, hfired.2.1]

theorem animateTick_point_debounced
    (speed : ℚ) (tracks : List Bool) (l1 l2 : List Note) (n : Note) (nc : NoteColor)
    (st : SchedState) (now : ℤ)
    (hl1 : ∀ m ∈ l1, m.id ≠ n.id) (hl2 : ∀ m ∈ l2, m.id ≠ n.id)
    (hdur : ¬ 0 < n.durationAngle)
    (htr : tracks.getD n.track false = true)
    (hnc : NOTE_COLORS.find? (fun c => c.color == n.color) = some nc)
    (hdeb : ¬ now - getLastPlayed st.lastPlayed n.id > 250) :
    (animateTick speed tracks (l1 ++ n :: l2) now st).calls.oneShots.filter
      (fun x => x.1 == n.id) = [] := by
  simp only [animateTick, List.foldl_append, List.foldl_cons]
  have hstep1 := foldl_oneShots_ne tracks st.rotation (nextRotation speed st.rotation)
    now n.id l1 hl1 ⟨st.playing, st.lastPlayed, ⟨[], [], []⟩⟩
  have hdeb' : ¬ now - getLastPlayed
      (l1.foldl (processNote tracks st.rotation (nextRotation speed st.rotation) now)
        ⟨st.playing, st.lastPlayed, ⟨[], [], []⟩⟩).lastPlayed n.id > 250 := by
    rw [hstep1.2]; exact hdeb
  have hdebounced := processNote_point_debounced tracks st.rotation
    (nextRotation speed st.rotation) now _ n nc htr hnc hdur hdeb'
  have hstep2 := foldl_oneShots_ne tracks st.rotation (nextRotation speed st.rotation)
    now n.id l2 hl2
    (processNote tracks st.rotation (nextRotation speed st.rotation) now
      (l1.foldl (processNote tracks st.rotation (nextRotation speed st.rotation) now)
        ⟨st.playing, st.lastPlayed, ⟨[], [], []⟩⟩) n)
  rw [hstep2.1, hdebounced, hstep1.1]
  rfl

/-- C3: a point note (enabled track, palette color, id unique in the list)
whose visual angle crosses the playhead during a tick, with the debounce
window clear, produces exactly one `playNote` call on that tick and records
the trigger time; a second crossing on the following tick less than 250 ms
of wall-clock time after that trigger produces zero additional calls. -/
theorem c3_point_crossing_triggers_once_then_debounced
    (speed : ℚ) (tracks : List Bool) (l1 l2 : List Note) (n : Note) (nc : NoteColor)
    (st : SchedState) (now1 now2 : ℤ)
    (hl1 : ∀ m ∈ l1, m.id ≠ n.id) (hl2 : ∀ m ∈ l2, m.id ≠ n.id)
    (hdur : ¬ 0 < n.durationAngle)
    (htr : tracks.getD n.track false = true)
    (hnc : NOTE_COLORS.find? (fun c => c.color == n.color) = some nc)
    (hcross1 : pointCrossed n st.rotation (nextRotation speed st.rotation) = true)
    (hdeb1 : now1 - getLastPlayed st.lastPlayed n.id > 250)
    (hcross2 : pointCrossed n (nextRotation speed st.rotation)
      (nextRotation speed (nextRotation speed st.rotation)) = true)
    (hdeb2 : now2 - now1 < 250) :
    ((animateTick speed tracks (l1 ++ n :: l2) now1 st).calls.oneShots.filter
        (fun x => x.1 == n.id) = [(n.id, noteFreq nc n)]) ∧
    ((animateTick speed tracks (l1 ++ n :: l2) now2
        (animateTick speed tracks (l1 ++ n :: l2) now1 st).state).calls.oneShots.filter
        (fun x => x.1 == n.id) = []) := by
  have h1 := animateTick_point_fired speed tracks l1 l2 n nc st now1
    hl1 hl2 hdur htr hnc hcross1 hdeb1
  refine ⟨h1.1, ?_⟩
  have hdeb2' : ¬ now2 - getLastPlayed
      (animateTick speed tracks (l1 ++ n :: l2) now1 st).state.lastPlayed n.id > 250 := by
    rw [h1.2]; omega
  exact animateTick_point_debounced speed tracks l1 l2 n nc
    (animateTick speed tracks (l1 ++ n :: l2) now1 st).state now2
    hl1 hl2 hdur htr hnc hdeb2'

/-- A point note at angle 250 on track 0, C4 colored, used by the C3 witness. -/
def c3Note : Note := ⟨"p3", 0, 250, 0, "#ef4444", "C4"⟩

/-- Witness for C3 at concrete inputs: at 50 revolutions per second the disc
advances 300 degrees per frame, so the note's visual angle crosses the
playhead on two consecutive ticks; the first (debounce clear) fires once,
the second (100 ms later) is debounced. -/
theorem c3_point_crossing_triggers_once_then_debounced_witness :
    ((animateTick (1/50) [true, true, true, true] ([] ++ c3Note :: []) 1000
        ⟨0, [], []⟩).calls.oneShots.filter
        (fun x => x.1 == c3Note.id) = [(c3Note.id, noteFreq colorC4 c3Note)]) ∧
    ((animateTick (1/50) [true, true, true, true] ([] ++ c3Note :: []) 1100
        (animateTick (1/50) [true, true, true, true] ([] ++ c3Note :: []) 1000
          ⟨0, [], []⟩).state).calls.oneShots.filter
        (fun x => x.1 == c3Note.id) = []) :=
  c3_point_crossing_triggers_once_then_debounced (1/50) [true, true, true, true]
    [] [] c3Note colorC4 ⟨0, [], []⟩ 1000 1100
    (fun m hm => absurd hm (List.not_mem_nil m))
    (fun m hm => absurd hm (List.not_mem_nil m))
    (by norm_num [c3Note])
    (by norm_num [c3Note, List.getD])
    (by norm_num [c3Note, colorC4, NOTE_COLORS, List.find?])
    (by norm_num [pointCrossed, nextRotation, degreesPerFrame, jsMod,
      playheadPosition, c3Note])
    (by norm_num [getLastPlayed, List.find?])
    (by norm_num [pointCrossed, nextRotation, degreesPerFrame, jsMod,
      playheadPosition, c3Note])
    (by norm_num)

/-- C10: while playback continues, a registered sustained voice whose note is
no longer in the note list (individual removal or clear-all) is never sent a
`stopSustainedNote` call by any number of subsequent `animate` ticks — the
scheduler only evaluates notes still in the list — and its id stays in the
playing-sustained set; only the pause cleanup finally stops it (and every
other registered voice), emptying the set. -/
theorem c10_removed_note_voice_persists_until_pause
    (speed : ℚ) (tracks : List Bool) (notes : List Note) (nows : List ℤ)
    (st : SchedState) (s : String)
    (hplaying : s ∈ st.playing) (hnotes : ∀ m ∈ notes, m.id ≠ s) :
    s ∉ (runTicks speed tracks notes nows st).2 ∧
    s ∈ (runTicks speed tracks notes nows st).1.playing ∧
    s ∈ (pauseCleanup (runTicks speed tracks notes nows st).1).2 ∧
    (pauseCleanup (runTicks speed tracks notes nows st).1).1.playing = [] := by
  have key : ∀ (ticks : List ℤ) (st1 : SchedState), s ∈ st1.playing →
      s ∉ (runTicks speed tracks notes ticks st1).2 ∧
      s ∈ (runTicks speed tracks notes ticks st1).1.playing := by
    intro ticks
    induction ticks with
    | nil => exact fun st1 h => ⟨List.not_mem_nil s, h⟩
    | cons now rest ih =>
      intro st1 h
      simp only [runTicks]
      have hfold := foldl_playing_stops_ne tracks st1.rotation
        (nextRotation speed st1.rotation) now s notes hnotes
        ⟨st1.playing, st1.lastPlayed, ⟨[], [], []⟩⟩
      have hst : s ∈ (animateTick speed tracks notes now st1).state.playing :=
        hfold.1.mpr h
      have hstop : s ∉ (animateTick speed tracks notes now st1).calls.stops :=
        fun hmem => List.not_mem_nil s (hfold.2.mp hmem)
      have hrec := ih (animateTick speed tracks notes now st1).state hst
      refine ⟨?_, hrec.2⟩
      intro hmem
      rcases List.mem_append.mp hmem with h1 | h1
      · exact hstop h1
      · exact hrec.1 h1
  exact ⟨(key nows st hplaying).1, (key nows st hplaying).2,
    (key nows st hplaying).2, rfl⟩

/-- Witness for C10 at concrete inputs: the voice `"x"` is registered but its
note has been removed (empty note list); two ticks never stop it, the
pause cleanup does. -/
theorem c10_removed_note_voice_persists_until_pause_witness :
    "x" ∉ (runTicks 10 [true, true, true, true] [] [0, 17] ⟨0, ["x"], []⟩).2 ∧
    "x" ∈ (runTicks 10 [true, true, true, true] [] [0, 17] ⟨0, ["x"], []⟩).1.playing ∧
    "x" ∈ (pauseCleanup (runTicks 10 [true, true, true, true] [] [0, 17]
      ⟨0, ["x"], []⟩).1).2 ∧
    (pauseCleanup (runTicks 10 [true, true, true, true] [] [0, 17]
      ⟨0, ["x"], []⟩).1).1.playing = [] :=
  c10_removed_note_voice_persists_until_pause 10 [true, true, true, true] [] [0, 17]
    ⟨0, ["x"], []⟩ "x" (List.mem_singleton.mpr rfl)
    (fun m hm => absurd hm (List.not_mem_nil m))

/-- C2 (counterexample): in `src/App.tsx` the playhead sits at 90 degrees,
not at 0; a tick advancing the rotation from 350 to 10 moves the visual
angle of the point note placed at angle 0 through 0/360, which does not
cross the code's playhead, so `playNote` is never called — the claimed
"exactly one" trigger does not happen. -/
theorem c2_wraparound_tick_produces_no_trigger :
    (animateTick (3/10) [true, true, true, true] [c2Note] 1000
        ⟨350, [], []⟩).calls.oneShots = [] ∧
    (animateTick (3/10) [true, true, true, true] [c2Note] 1000
        ⟨350, [], []⟩).state.rotation = 10 := by
  constructor <;>
    norm_num [animateTick, nextRotation, degreesPerFrame, processNote, NOTE_COLORS,
      noteFreq, pointCrossed, playheadPosition, jsMod, c2Note,
      List.foldl, List.find?, List.getD]

/-- C2 (amended): with the playhead fixed at 90 degrees as in `src/App.tsx`,
a single tick advancing the rotation from 80 to 100 (the note's visual angle
crossing the playhead) on an enabled track produces exactly one
`playNote` call, at frequency `261.63 * 2 ^ 0` (track 0 is the base octave;
`Math.pow(2, note.track)` gives each inner track one octave higher). -/
theorem c2_amended_one_trigger_at_base_octave :
    (animateTick (3/10) [true, true, true, true] [c2Note] 1000
        ⟨80, [], []⟩).calls.oneShots = [("p1", (261.63 : ℚ) * 2 ^ (0 : ℕ))] ∧
    (animateTick (3/10) [true, true, true, true] [c2Note] 1000
        ⟨80, [], []⟩).state.rotation = 100 := by
  constructor <;>
    norm_num [animateTick, nextRotation, degreesPerFrame, processNote, NOTE_COLORS,
      noteFreq, pointCrossed, playheadPosition, jsMod, getLastPlayed, setLastPlayed,
      c2Note, List.foldl, List.find?, List.getD]

/-- C5 (failing input): a sustained note on track 0 has a registered voice
(`"s1"` is in the playing set) and its span still covers the playhead, but
the track was disabled.  The next tick emits no `stopSustainedNote` call and
leaves the voice registered: `animate` skips notes on disabled tracks
entirely (`if (!activeTracks[note.track]) return`), so muting a track never
stops a voice that is already sounding. -/
theorem c5_disabled_track_leaves_voice_running :
    (animateTick 10 [false, true, true, true] [c5Note] 0
        ⟨0, ["s1"], []⟩).calls.stops = [] ∧
    (animateTick 10 [false, true, true, true] [c5Note] 0
        ⟨0, ["s1"], []⟩).state.playing = ["s1"] := by
  constructor <;>
    norm_num [animateTick, nextRotation, degreesPerFrame, processNote, c5Note,
      List.foldl, List.getD]

/-- C6 (failing input): the overlap check of `handleMouseUp` runs on the
drag's snapped duration before that duration is capped to 359.9.  A drag of
400 degrees on track 0 with an existing note spanning `[100, 110)` passes
`isSlotOccupied` (the arc helpers break down for durations above 360), so a
sustained note spanning `[0, 359.9)` is inserted even though it overlaps the
existing note. -/
theorem c6_full_circle_drag_inserts_overlapping_note :
    handleMouseUp [c6Note] TRACK_SNAP_ANGLES colorC4 "n2" 0 0 400 =
      [c6Note, mkNote "n2" 0 0 359.9 colorC4] ∧
    spanOverlapSpec 0 359.9 100 10 := by
  constructor
  · norm_num [handleMouseUp, snappedTotalAngle, jsRound, isSlotOccupied, doArcsOverlap,
      isAngleInArc, jsMod, c6Note, TRACK_SNAP_ANGLES, colorC4, List.getD, List.any]
  · norm_num [spanOverlapSpec, circDist, jsMod]

/-- C4: whenever the playing state flips to false, the cleanup branch of the
`isPlaying` effect calls `stopSustainedNote` for every id in the
playing-sustained set and clears the set — independently of the rotation,
the notes, and hence of where the playhead sits relative to any span. -/
theorem c4_pause_stops_every_sustained_voice (st : SchedState) :
    (∀ id, id ∈ st.playing → id ∈ (pauseCleanup st).2) ∧
    (pauseCleanup st).2 = st.playing ∧
    (pauseCleanup st).1.playing = [] :=
  ⟨fun _ h => h, rfl, rfl⟩

/-- Witness for C4 at a concrete state. -/
theorem c4_pause_stops_every_sustained_voice_witness :
    "a" ∈ (pauseCleanup ⟨17, ["a", "b"], []⟩).2 ∧
    (pauseCleanup ⟨17, ["a", "b"], []⟩).1.playing = [] :=
  ⟨(c4_pause_stops_every_sustained_voice ⟨17, ["a", "b"], []⟩).1 "a" (by simp),
   (c4_pause_stops_every_sustained_voice ⟨17, ["a", "b"], []⟩).2.2⟩

/-- C7 (counterexample): two `updateEffects` calls 0.05 s apart each schedule
a linear ramp on the reverb wet gain ending 0.1 s after the call.  At the
second call the first event (target time 0.1) still lies in the future, yet
it is not cancelled or overridden: both events stay scheduled, so ramp
events stack instead of being replaced. -/
theorem c7_second_call_does_not_cancel_first_ramp :
    (updateEffects sampleEffects (1/20)
        (updateEffects sampleEffects 0 chain0)).reverbWet.events =
      [(1/10, 1/2), (1/20 + 1/10, 1/2)] ∧
    (1/20 : ℚ) < 1/10 := by
  constructor
  · norm_num [updateEffects, linearRampToValueAtTime, sampleEffects, chain0,
      emptyParam, RAMP_TIME]
  · norm_num

/-- C7 (amended): consecutive `updateEffects` calls append their ramp events;
the second call leaves the first call's scheduled event in place (shown here
for the reverb wet gain, whose target is `reverb.wet` when the reverb is on
and 0 otherwise).  Events are only consumed by audio time passing, so each
call adds one scheduled event per touched parameter. -/
theorem c7_amended_ramps_accumulate (chain : EffectsChain)
    (e1 e2 : AudioEffects) (now1 now2 : ℚ) :
    (updateEffects e2 now2 (updateEffects e1 now1 chain)).reverbWet.events =
      chain.reverbWet.events ++
        [(now1 + RAMP_TIME, if e1.reverb.«on» then e1.reverb.wet else 0),
         (now2 + RAMP_TIME, if e2.reverb.«on» then e2.reverb.wet else 0)] := by
  simp [updateEffects, linearRampToValueAtTime]

/-- C8 (counterexample): calling `updateEffects` of
`src/hooks/useAudioEngine.ts` twice with the identical configuration (same
distortion drive, same bitcrusher bit depth) still recomputes and reassigns
the distortion curve on the second call, and likewise the bitcrusher curve
while the bitcrusher is on — the buffers are touched although their defining
parameters did not change. -/
theorem c8_curves_recomputed_without_parameter_change :
    (updateEffects sampleEffects 0 chain0).distortionCurve = [1/2] ∧
    (updateEffects sampleEffects (1/2)
        (updateEffects sampleEffects 0 chain0)).distortionCurve = [1/2, 1/2] ∧
    (updateEffects sampleEffects (1/2)
        (updateEffects sampleEffects 0 chain0)).bitcrusherCurve = [8, 8] := by
  refine ⟨?_, ?_, ?_⟩ <;>
    norm_num [updateEffects, sampleEffects, chain0]

/-- C8 (amended): the variant that tracks the previous configuration
(`src/unnamed/part_003`) regenerates the reverb impulse response exactly when
the reverb type changed and the distortion curve exactly when the distortion
type changed; the primary hooks engine (`src/hooks/useAudioEngine.ts`)
instead reassigns the distortion curve on every call, regardless of its
parameters. -/
theorem c8_amended_buffers_regenerated_only_on_change
    (p e : AudioEffectsFlat) (now : ℚ) (chain : EffectsChainFlat)
    (e' : AudioEffects) (now' : ℚ) (chain' : EffectsChain) :
    ((updateEffectsFlat (some p) e now chain).reverbBuffer = chain.reverbBuffer ↔
      p.reverbType = e.reverbType) ∧
    ((updateEffectsFlat (some p) e now chain).distortionCurve = chain.distortionCurve ↔
      p.distortionType = e.distortionType) ∧
    (updateEffects e' now' chain').distortionCurve =
      chain'.distortionCurve ++ [e'.distortion.drive] := by
  refine ⟨?_, ?_, ?_⟩
  · by_cases h : p.reverbType = e.reverbType <;> simp [updateEffectsFlat, h]
  · by_cases h : p.distortionType = e.distortionType <;> simp [updateEffectsFlat, h]
  · simp [updateEffects]

/-- C9 (counterexample): `generateComposition` only checks `Array.isArray`;
an array whose single element is an empty object — which does not have the
`{track, angle, colorIndex}` shape — is accepted and returned whole instead
of being rejected as a batch. -/
theorem c9_malformed_elements_accepted :
    validateComposition (JsonValue.arr [JsonValue.obj []]) =
      Except.ok [JsonValue.obj []] ∧
    isAINoteShape (JsonValue.obj []) = false :=
  ⟨rfl, rfl⟩

/-- C9 (amended): the response validation checks only that the parsed value
is an array: every non-array is rejected as a whole batch with the generic
generation failure (leaving the caller's notes untouched), and every array
is returned unchanged, without validating the shape of its elements. -/
theorem c9_amended_only_array_shape_validated (v : JsonValue) :
    (∀ elems, v = JsonValue.arr elems → validateComposition v = Except.ok elems) ∧
    ((∀ elems, v ≠ JsonValue.arr elems) →
      validateComposition v = Except.error "Failed to generate AI composition.") := by
  constructor
  · rintro elems rfl; rfl
  · intro h
    cases v with
    | arr es => exact absurd rfl (h es)
    | null => rfl
    | bool b => rfl
    | num q => rfl
    | str s => rfl
    | obj fields => rfl

/-- Witness for C9 at concrete inputs: an array is accepted as-is, a
non-array is rejected with the generation failure. -/
theorem c9_amended_only_array_shape_validated_witness :
    validateComposition (JsonValue.arr []) = Except.ok [] ∧
    validateComposition JsonValue.null =
      Except.error "Failed to generate AI composition." :=
  ⟨(c9_amended_only_array_shape_validated (JsonValue.arr [])).1 [] rfl,
   (c9_amended_only_array_shape_validated JsonValue.null).2
     (fun _ h => JsonValue.noConfusion h)⟩

end OrbitalMusicBox
